import Mathlib

/-!
Verification of the panopaea spectral-ocean and SPH-kernel modules.

The development shallowly embeds `src/panopaea/src/ocean/empirical.rs` and
`src/panopaea/src/sph/kernel.rs` into Lean.  The generic scalar type
`T : Real` of the Rust code (instantiated at f32/f64) is modelled as `ℝ`;
the machine epsilon `T::default_epsilon()` (from the external `approx`
crate) is passed explicitly as a parameter `eps`, and the two random draws
made inside `sample_spectrum` (one standard normal scalar and one uniform
scalar in `[0,1)`) are passed explicitly as parameters `z` and `u`.
Complex numbers (`num::complex::Complex<T>`) are modelled as `ℂ`;
`Complex::new(a, b)` is the anonymous constructor `⟨a, b⟩`.
-/

noncomputable section

/-- Source `Parameters` struct of `ocean/empirical.rs` (fields in source order). -/
structure Parameters where
  surface_tension : ℝ
  water_density : ℝ
  water_depth : ℝ
  gravity : ℝ
  wind_speed : ℝ
  fetch : ℝ
  swell : ℝ
  domain_size : ℝ

/-- Source `dispersion_peak`: `22 * (g^2 / (U*F))^(1/3)`. -/
def dispersion_peak (gravity wind_speed fetch : ℝ) : ℝ :=
  22 * (gravity ^ 2 / (wind_speed * fetch)) ^ ((1 : ℝ) / 3)

/-- Source `SpectrumJONSWAP` struct (fields in source order). -/
structure SpectrumJONSWAP where
  wind_speed : ℝ
  fetch : ℝ
  gravity : ℝ

/-- Source `SpectrumJONSWAP::evaluate` ([Horvath15] Eq. 28), with the
`T::default_epsilon()` guard made an explicit parameter `eps`. -/
def SpectrumJONSWAP.evaluate (eps : ℝ) (s : SpectrumJONSWAP) (omega : ℝ) : ℝ :=
  if omega < eps then 0
  else
    let gamma : ℝ := 3.3
    let omega_peak := dispersion_peak s.gravity s.wind_speed s.fetch
    let alpha : ℝ := 0.076 * (s.wind_speed ^ 2 / (s.fetch * s.gravity)) ^ ((0.22 : ℝ))
    let sigma : ℝ := if omega ≤ omega_peak then 0.07 else 0.09
    let r := Real.exp (-(omega - omega_peak) ^ 2 / (2 * (sigma * omega_peak) ^ 2))
    (alpha * s.gravity ^ 2 / omega ^ 5) *
      Real.exp ((-5 / 4 : ℝ) * (omega_peak / omega) ^ 4) * gamma ^ r

/-- Source `SpectrumTMA` struct: a JONSWAP spectrum plus a depth. -/
structure SpectrumTMA where
  jonswap : SpectrumJONSWAP
  depth : ℝ

/-- Source `SpectrumTMA::kitaigorodskii_depth_attenuation` as written in the source:
`omega_h = (omega * (depth / gravity)).max(0).min(2)` — note the source does
NOT take a square root of `depth / gravity` — then the Thompson–Vincent
piecewise quadratic. -/
def SpectrumTMA.kitaigorodskii_depth_attenuation (s : SpectrumTMA) (omega : ℝ) : ℝ :=
  let omega_h := min (max (omega * (s.depth / s.jonswap.gravity)) 0) 2
  if omega_h ≤ 1 then 0.5 * omega_h ^ 2 else 1 - 0.5 * (2 - omega_h) ^ 2

/-- Source `SpectrumTMA::evaluate`: JONSWAP density times the depth attenuation. -/
def SpectrumTMA.evaluate (eps : ℝ) (s : SpectrumTMA) (omega : ℝ) : ℝ :=
  SpectrumJONSWAP.evaluate eps s.jonswap omega *
    s.kitaigorodskii_depth_attenuation omega

/-- The depth-attenuation factor as the specification words it
([Horvath15] Eq. 29): `omega_h = clamp(omega * sqrt(depth/gravity), 0, 2)`,
WITH the square root.  Stated only to compare against the source's
`kitaigorodskii_depth_attenuation`, which omits the square root. -/
def spec_kitaigorodskii_depth_attenuation (s : SpectrumTMA) (omega : ℝ) : ℝ :=
  let omega_h := min (max (omega * Real.sqrt (s.depth / s.jonswap.gravity)) 0) 2
  if omega_h ≤ 1 then 0.5 * omega_h ^ 2 else 1 - 0.5 * (2 - omega_h) ^ 2

/-- The cgmath `Vector2::magnitude2`, i.e. `dot(v, v)`. -/
def magnitude2 (v : ℝ × ℝ) : ℝ := v.1 * v.1 + v.2 * v.2

/-- The cgmath `Vector2::magnitude`, i.e. `sqrt(dot(v, v))`. -/
def magnitude (v : ℝ × ℝ) : ℝ := Real.sqrt (magnitude2 v)

/-- The cgmath `y.atan2(x)`: the polar angle of the point `(x, y)`, modelled as
the argument of the complex number `x + y*i` (range `(-π, π]`). -/
def atan2 (y x : ℝ) : ℝ := Complex.arg ⟨x, y⟩

/-- Source `dispersion_capillary`: finite-depth gravity-capillary dispersion
`omega = sqrt((g*k + (sigma/rho)*k^3) * tanh(h*k))` and its analytic
derivative with respect to `k` (`sech x = 1 / cosh x`). -/
def dispersion_capillary (p : Parameters) (wave_number : ℝ) : ℝ × ℝ :=
  let sigma := p.surface_tension
  let rho := p.water_density
  let g := p.gravity
  let h := p.water_depth
  let k := wave_number
  let dispersion := Real.sqrt ((g * k + (sigma / rho) * k ^ 3) * Real.tanh (h * k))
  let grad_dispersion :=
    (h * (1 / Real.cosh (h * k)) ^ 2 * (g * k + (sigma / rho) * k ^ 3) +
        Real.tanh (h * k) * (g + 3 * (sigma / rho) * k ^ 2)) /
      (2 * dispersion)
  (dispersion, grad_dispersion)

/-- Source `directional_elongation` ([Horvath15] Eq. 44):
`|cos(theta/2)|^(2*shaping)` with
`shaping = 16 * tanh(omega_peak / omega) * swell^2`. -/
def directional_elongation (p : Parameters) (omega theta : ℝ) : ℝ :=
  let shaping :=
    16 * Real.tanh (dispersion_peak p.gravity p.wind_speed p.fetch / omega) *
      p.swell ^ 2
  |Real.cos (theta / 2)| ^ (2 * shaping)

/-- Modelled from the spec: `math::integration::trapezoidal_quadrature` is
not under `src/`; per §4.2 of the specification it is a fixed-sample
composite trapezoidal rule on the interval `bounds` with `n` subintervals:
`h * ((f a + f b)/2 + sum of f at the n-1 interior nodes)`, `h = (b-a)/n`. -/
def trapezoidal_quadrature (bounds : ℝ × ℝ) (n : ℕ) (f : ℝ → ℝ) : ℝ :=
  let a := bounds.1
  let b := bounds.2
  let h := (b - a) / n
  h * ((f a + f b) / 2 + ∑ k ∈ Finset.range (n - 1), f (a + (k + 1) * h))

/-- Source `directional_spreading`: normalizes `base * elongation` by its own
128-sample trapezoidal quadrature over `[-pi, pi]`. -/
def directional_spreading (p : Parameters) (omega theta : ℝ)
    (directional_base : Parameters → ℝ → ℝ → ℝ) : ℝ :=
  let pi := Real.pi
  let normalization :=
    trapezoidal_quadrature (-pi, pi) 128
      (fun t => directional_base p omega t * directional_elongation p omega t)
  directional_base p omega theta * directional_elongation p omega theta /
    normalization

/-- Source `directional_base_donelan_banner` ([Horvath15] Eq. 38): piecewise shape
parameter `beta` by `omega/omega_peak` regime, then
`beta / (2 * tanh(beta*pi)) * sech(beta*theta)^2`. -/
def directional_base_donelan_banner (p : Parameters) (omega theta : ℝ) : ℝ :=
  let beta :=
    let omega_peak := dispersion_peak p.gravity p.wind_speed p.fetch
    let omega_ratio := omega / omega_peak
    if omega_ratio < 0.95 then 2.61 * omega_ratio ^ ((1.3 : ℝ))
    else if omega_ratio < 1.6 then 2.28 * omega_ratio ^ ((-1.3 : ℝ))
    else
      let epsilon := -0.4 + 0.8393 * Real.exp (-0.567 * Real.log (omega_ratio ^ 2))
      (10 : ℝ) ^ epsilon
  beta / (2 * Real.tanh (beta * Real.pi)) * (1 / Real.cosh (beta * theta)) ^ 2

/-- Source `sample_spectrum`: the per-wavevector sampler.  The spectrum trait
object is modelled by its `evaluate` function; the two random draws are the
explicit parameters `z` (standard normal) and `u` (uniform in `[0,1)`,
multiplied by `2π` to give the phase, as in the source). -/
def sample_spectrum (eps : ℝ) (p : Parameters) (spectrum : ℝ → ℝ)
    (pos : ℝ × ℝ) (z u : ℝ) : ℂ × ℝ :=
  if magnitude pos < eps then (⟨0, 0⟩, 0)
  else
    let theta := atan2 pos.2 pos.1
    let grad_k := 2 * Real.pi / p.domain_size
    let dc := dispersion_capillary p (magnitude pos)
    let omega := dc.1
    let grad_omega := dc.2
    let spreading := directional_spreading p omega theta directional_base_donelan_banner
    let sample := spectrum omega
    let phase := 2 * Real.pi * u
    let amplitude :=
      z * Real.sqrt (2 * spreading * sample * grad_k ^ 2 * grad_omega / magnitude pos)
    (⟨Real.cos phase * amplitude, Real.sin phase * amplitude⟩, omega)

/-! ## Ocean propagation (`Ocean::propagate` and helpers) -/

/-- The centered grid coordinate `2*idx - resolution - 1` (signed integer
arithmetic in the source, then cast to the scalar type). -/
def centered (resolution idx : ℕ) : ℝ :=
  ((2 * (idx : ℤ) - (resolution : ℤ) - 1 : ℤ) : ℝ)

/-- The wavevector of grid cell `(j, i)`:
`k = (pi * x / domain_size, pi * y / domain_size)` with
`x = 2*i - resolution - 1`, `y = 2*j - resolution - 1`. -/
def waveVector (p : Parameters) (resolution : ℕ) (j i : ℕ) : ℝ × ℝ :=
  (Real.pi * centered resolution i / p.domain_size,
   Real.pi * centered resolution j / p.domain_size)

/-- The `k_normalized` complex of `Ocean::propagate`: the unit wavevector
direction packed as `Complex::new(k.x/len, k.y/len)`, or `0` when the
magnitude is below `eps`. -/
def kNormalized (eps : ℝ) (p : Parameters) (resolution : ℕ) (j i : ℕ) : ℂ :=
  let k := waveVector p resolution j i
  let len := magnitude k
  if len < eps then ⟨0, 0⟩ else ⟨k.1 / len, k.2 / len⟩

/-- The time-evolved `sample` of `Ocean::propagate`:
`samples[j,i] * exp(+i*omega*t) + samples[res-1-j, res-1-i] * exp(-i*omega*t)`
(the reflected partner amplitude is NOT conjugated in the source). -/
def propagateSample {res : ℕ} (samples : Fin res → Fin res → ℂ)
    (omega : Fin res → Fin res → ℝ) (time : ℝ) (j i : Fin res) : ℂ :=
  let dispersion := omega j i * time
  let disp_pos : ℂ := ⟨Real.cos dispersion, Real.sin dispersion⟩
  let disp_neg : ℂ := ⟨Real.cos dispersion, -Real.sin dispersion⟩
  samples j i * disp_pos + samples j.rev i.rev * disp_neg

/-- The x-axis spectral field of `Ocean::propagate`:
`dx = Complex::new(0, -k_normalized.re) * sample`. -/
def dispXField (eps : ℝ) (p : Parameters) {res : ℕ}
    (samples : Fin res → Fin res → ℂ) (omega : Fin res → Fin res → ℝ)
    (time : ℝ) : Fin res → Fin res → ℂ :=
  fun j i =>
    (⟨0, -(kNormalized eps p res j i).re⟩ : ℂ) *
      propagateSample samples omega time j i

/-- The y-axis spectral field of `Ocean::propagate`: `dy = sample`
(the unmodified, vertical field). -/
def dispYField {res : ℕ} (samples : Fin res → Fin res → ℂ)
    (omega : Fin res → Fin res → ℝ) (time : ℝ) : Fin res → Fin res → ℂ :=
  fun j i => propagateSample samples omega time j i

/-- The z-axis spectral field of `Ocean::propagate`:
`dz = Complex::new(0, -k_normalized.im) * sample`. -/
def dispZField (eps : ℝ) (p : Parameters) {res : ℕ}
    (samples : Fin res → Fin res → ℂ) (omega : Fin res → Fin res → ℝ)
    (time : ℝ) : Fin res → Fin res → ℂ :=
  fun j i =>
    (⟨0, -(kNormalized eps p res j i).im⟩ : ℂ) *
      propagateSample samples omega time j i

/-- The external transform primitive (`rustfft` planned with
`FFTplanner::new(true)`): the unnormalized inverse discrete Fourier
transform of a length-`N` sequence. -/
def idft {N : ℕ} (v : Fin N → ℂ) (k : Fin N) : ℂ :=
  ∑ n : Fin N,
    v n * Complex.exp (2 * Real.pi * Complex.I * (n : ℕ) * (k : ℕ) / N)

/-- Source `Ocean::spectral_to_spatial`: one transform pass over every row, an
`input.assign(&output.t())` transpose, then a second pass over every row.
Row `j` of the final output is the transform of column `j` of the
first-pass result. -/
def spectral_to_spatial {N : ℕ} (input : Fin N → Fin N → ℂ) : Fin N → Fin N → ℂ :=
  let firstPass := fun j => idft (input j)
  fun j => idft (fun n => firstPass n j)

/-- Output vector type of propagation (cgmath `Vector3<T>`; the name
`Vector3` itself is taken by Mathlib). -/
structure Vec3 where
  x : ℝ
  y : ℝ
  z : ℝ

/-- The checkerboard correction step of `Ocean::propagate`: the real part,
negated exactly when `(row + col)` is even. -/
def checkerboard (j i : ℕ) (c : ℂ) : ℝ :=
  if (j + i) % 2 = 0 then -c.re else c.re

/-- Source `Ocean::propagate`: evolve the base spectrum to `time`, split into the
three per-axis spectral fields, inverse-transform each, and write the
checkerboard-corrected real parts into the output vector field. -/
def Ocean.propagate (eps : ℝ) {res : ℕ} (p : Parameters)
    (samples : Fin res → Fin res → ℂ) (omega : Fin res → Fin res → ℝ)
    (time : ℝ) : Fin res → Fin res → Vec3 :=
  fun j i =>
    { x := checkerboard j i (spectral_to_spatial (dispXField eps p samples omega time) j i)
      y := checkerboard j i (spectral_to_spatial (dispYField samples omega time) j i)
      z := checkerboard j i (spectral_to_spatial (dispZField eps p samples omega time) j i) }

/-! ## SPH smoothing kernels (`sph/kernel.rs`) -/

/-- Source `Poly6` kernel struct (fields in source order). -/
structure Poly6 where
  h : ℝ
  w_const : ℝ
  grad_w_const : ℝ

/-- Source `Poly6::new`. -/
def Poly6.new (smoothing_radius : ℝ) : Poly6 :=
  { h := smoothing_radius
    w_const := (315 / 64) / (Real.pi * smoothing_radius ^ 9)
    grad_w_const := (-945 / 32) / (Real.pi * smoothing_radius ^ 9) }

/-- Source `Poly6::w`. -/
def Poly6.w (s : Poly6) (radius : ℝ) : ℝ :=
  if s.h ≤ radius then 0 else s.w_const * (s.h ^ 2 - radius ^ 2) ^ 3

/-- Source `Poly6::grad_w`. -/
def Poly6.grad_w (s : Poly6) (radius : ℝ) : ℝ :=
  if s.h ≤ radius then 0 else s.grad_w_const * (s.h ^ 2 - radius ^ 2) ^ 2

/-- Source `Spiky` kernel struct (fields in source order). -/
structure Spiky where
  h : ℝ
  w_const : ℝ
  grad_w_const : ℝ

/-- Source `Spiky::new`. -/
def Spiky.new (smoothing_radius : ℝ) : Spiky :=
  { h := smoothing_radius
    w_const := 15 / (Real.pi * smoothing_radius ^ 6)
    grad_w_const := -45 / (Real.pi * smoothing_radius ^ 6) }

/-- Source `Spiky::w`. -/
def Spiky.w (s : Spiky) (radius : ℝ) : ℝ :=
  if s.h ≤ radius then 0 else s.w_const * (s.h - radius) ^ 3

/-- Source `Spiky::grad_w`, with the source's literal guard constant
`eps = 0.00001`. -/
def Spiky.grad_w (s : Spiky) (radius : ℝ) : ℝ :=
  if s.h ≤ radius ∨ radius < 1 / 100000 then 0
  else s.grad_w_const * (s.h - radius) ^ 2 / radius

/-- Source `Viscosity` kernel struct (fields in source order). -/
structure Viscosity where
  h : ℝ
  w_const : ℝ
  laplace_w_const : ℝ

/-- Source `Viscosity::new`. -/
def Viscosity.new (smoothing_radius : ℝ) : Viscosity :=
  { h := smoothing_radius
    w_const := (15 / 2) / (Real.pi * smoothing_radius ^ 3)
    laplace_w_const := 45 / (Real.pi * smoothing_radius ^ 6) }

/-- Source `Viscosity::w`, with the source's literal guard constant
`eps = 0.00001`. -/
def Viscosity.w (s : Viscosity) (radius : ℝ) : ℝ :=
  if s.h ≤ radius ∨ radius < 1 / 100000 then 0
  else
    s.w_const *
      (-radius ^ 3 / (2 * s.h ^ 3) + (radius / s.h) ^ 2 + s.h / (2 * radius) - 1)

/-- Source `Viscosity::laplace_w`. -/
def Viscosity.laplace_w (s : Viscosity) (radius : ℝ) : ℝ :=
  if s.h ≤ radius then 0 else s.laplace_w_const * (s.h - radius)

/-! ## Concrete values used by the closed theorems -/

/-- The f32 machine epsilon `2^(-23)`, the `T::default_epsilon()` of the
source instantiated at `T = f32`. -/
def epsF32 : ℝ := 1 / 8388608

/-- Physical parameters that are all one (used for closed instantiations). -/
def onesParams : Parameters :=
  { surface_tension := 1, water_density := 1, water_depth := 1, gravity := 1
    wind_speed := 1, fetch := 1, swell := 1, domain_size := 1 }

/-- A TMA spectrum with unit JONSWAP parameters and depth 1. -/
def tmaOnes : SpectrumTMA := ⟨⟨1, 1, 1⟩, 1⟩

/-- A TMA spectrum with unit JONSWAP parameters and depth 4, where the
presence or absence of the square root in the depth-attenuation factor is
visible (`sqrt(4/1) = 2` versus `4/1 = 4`). -/
def tmaDepth4 : SpectrumTMA := ⟨⟨1, 1, 1⟩, 4⟩

/-- Unit physical parameters with zero swell (the directional elongation is
then constantly one). -/
def swellZeroParams : Parameters := { onesParams with swell := 0 }

/-- Unit physical parameters with domain size `2π`, so the centered
wavevector of the single cell of a resolution-1 grid is `(-1, -1)`. -/
def unitKParams : Parameters := { onesParams with domain_size := 2 * Real.pi }

/-- A resolution-1 amplitude grid holding the single value `1`. -/
def samplesOne : Fin 1 → Fin 1 → ℂ := fun _ _ => 1

/-- A resolution-1 amplitude grid holding the single value `i`. -/
def samplesImag : Fin 1 → Fin 1 → ℂ := fun _ _ => Complex.I

/-- A resolution-1 angular-frequency grid holding `0`. -/
def omegaZero : Fin 1 → Fin 1 → ℝ := fun _ _ => 0

/-! ## Helper lemmas -/

theorem tanh_pos_of_pos {x : ℝ} (h : 0 < x) : 0 < Real.tanh x := by
  rw [Real.tanh_eq_sinh_div_cosh]
  exact div_pos (Real.sinh_pos_iff.mpr h) (Real.cosh_pos x)

theorem tanh_lt_tanh_of_lt {x y : ℝ} (h : x < y) : Real.tanh x < Real.tanh y := by
  rw [Real.tanh_eq_sinh_div_cosh, Real.tanh_eq_sinh_div_cosh,
    div_lt_div_iff₀ (Real.cosh_pos x) (Real.cosh_pos y)]
  have hs : Real.sinh (y - x) = Real.sinh y * Real.cosh x - Real.cosh y * Real.sinh x :=
    Real.sinh_sub y x
  have hp : 0 < Real.sinh (y - x) := Real.sinh_pos_iff.mpr (by linarith)
  nlinarith [hs, hp]

theorem sqrt_four : Real.sqrt (4 : ℝ) = 2 := by
  rw [show (4 : ℝ) = 2 ^ 2 by norm_num, Real.sqrt_sq (by norm_num : (0 : ℝ) ≤ 2)]

/-! ## Claim theorems -/

/-- C1, counterexample side: at `depth = 4`, `gravity = wind_speed = fetch = 1`
and `omega = 1/2`, `SpectrumTMA.evaluate` does NOT equal the JONSWAP density
times the Kitaigorodskii factor computed from
`omega_h = clamp(omega * sqrt(depth/gravity), 0, 2)`: the source omits the
square root, so it attenuates with `omega_h = clamp(1/2 * 4, 0, 2) = 2`
(factor `1`) where the claim's formula has `omega_h = 1/2 * 2 = 1`
(factor `1/2`), and the JONSWAP density at `omega = 1/2` is positive. -/
theorem tma_missing_sqrt_in_depth_attenuation :
    SpectrumTMA.evaluate epsF32 tmaDepth4 (1 / 2) ≠
      SpectrumJONSWAP.evaluate epsF32 tmaDepth4.jonswap (1 / 2) *
        spec_kitaigorodskii_depth_attenuation tmaDepth4 (1 / 2) := by
  have hkit : tmaDepth4.kitaigorodskii_depth_attenuation (1 / 2) = 1 := by
    norm_num [SpectrumTMA.kitaigorodskii_depth_attenuation, tmaDepth4]
  have hspec : spec_kitaigorodskii_depth_attenuation tmaDepth4 (1 / 2) = 1 / 2 := by
    norm_num [spec_kitaigorodskii_depth_attenuation, tmaDepth4, sqrt_four]
  have hJ : 0 < SpectrumJONSWAP.evaluate epsF32 tmaDepth4.jonswap (1 / 2) := by
    rw [show tmaDepth4.jonswap = ⟨1, 1, 1⟩ from rfl, SpectrumJONSWAP.evaluate,
      if_neg (by norm_num [epsF32])]
    simp only [dispersion_peak]
    have h1 : ((1 : ℝ) ^ 2 / (1 * 1)) = 1 := by norm_num
    have h2 : ((1 : ℝ) ^ 2 / (1 * 1) : ℝ) = 1 := by norm_num
    simp only [h1, h2, Real.one_rpow]
    have e2 : (0 : ℝ) <
        (3.3 : ℝ) ^ Real.exp (-((1 : ℝ) / 2 - 22 * 1) ^ 2 /
          (2 * ((if (1 : ℝ) / 2 ≤ 22 * 1 then (0.07 : ℝ) else 0.09) * (22 * 1)) ^ 2)) :=
      Real.rpow_pos_of_pos (by norm_num) _
    positivity
  rw [SpectrumTMA.evaluate, hkit, hspec, mul_one]
  intro hcontra
  nlinarith [hJ, hcontra]

/-- C5: whenever the wavevector magnitude is below `eps`,
`sample_spectrum` returns exactly `(0 + 0i, 0)`, for every parameter set,
spectrum function and pair of random draws. -/
theorem sample_spectrum_zero_below_eps (eps : ℝ) (p : Parameters)
    (spectrum : ℝ → ℝ) (pos : ℝ × ℝ) (z u : ℝ) (h : magnitude pos < eps) :
    sample_spectrum eps p spectrum pos z u = (0, 0) := by
  rw [sample_spectrum, if_pos h]
  exact Prod.ext (Complex.ext rfl rfl) rfl

/-- Witness for C5: the zero wavevector has magnitude `0 < 2^(-23)`, and
`sample_spectrum` maps it to `(0, 0)`. -/
theorem sample_spectrum_zero_below_eps_witness :
    magnitude ((0 : ℝ), (0 : ℝ)) < epsF32 ∧
      sample_spectrum epsF32 onesParams (fun _ => 1) ((0 : ℝ), (0 : ℝ)) 1 1 = (0, 0) := by
  have hm : magnitude ((0 : ℝ), (0 : ℝ)) < epsF32 := by
    norm_num [magnitude, magnitude2, epsF32]
  exact ⟨hm, sample_spectrum_zero_below_eps epsF32 onesParams (fun _ => 1) _ 1 1 hm⟩

/-- C6: for every angular frequency that is nonpositive or below the (positive)
machine epsilon, both `SpectrumJONSWAP.evaluate` and `SpectrumTMA.evaluate`
return exactly `0`. -/
theorem spectra_zero_for_nonpositive_omega (eps : ℝ) (s : SpectrumTMA) (omega : ℝ)
    (heps : 0 < eps) (h : omega ≤ 0 ∨ omega < eps) :
    SpectrumJONSWAP.evaluate eps s.jonswap omega = 0 ∧
      SpectrumTMA.evaluate eps s omega = 0 := by
  have hlt : omega < eps := h.elim (fun h0 => lt_of_le_of_lt h0 heps) id
  constructor
  · rw [SpectrumJONSWAP.evaluate, if_pos hlt]
  · rw [SpectrumTMA.evaluate, SpectrumJONSWAP.evaluate, if_pos hlt, zero_mul]

/-- Witness for C6: at `omega = 0` with unit parameters and the f32 epsilon,
both spectra evaluate to `0`. -/
theorem spectra_zero_for_nonpositive_omega_witness :
    (0 : ℝ) < epsF32 ∧
      (SpectrumJONSWAP.evaluate epsF32 tmaOnes.jonswap 0 = 0 ∧
        SpectrumTMA.evaluate epsF32 tmaOnes 0 = 0) :=
  ⟨by norm_num [epsF32],
    spectra_zero_for_nonpositive_omega epsF32 tmaOnes 0 (by norm_num [epsF32])
      (Or.inl le_rfl)⟩

/-- C8: for positive gravity, density, depth and nonnegative surface tension,
the angular frequency component of `dispersion_capillary` is strictly
increasing in the wavenumber on the positive half-line. -/
theorem dispersion_capillary_strict_mono (p : Parameters) (k1 k2 : ℝ)
    (hg : 0 < p.gravity) (hs : 0 ≤ p.surface_tension) (hrho : 0 < p.water_density)
    (hh : 0 < p.water_depth) (hk : 0 < k1) (hkk : k1 < k2) :
    (dispersion_capillary p k1).1 < (dispersion_capillary p k2).1 := by
  simp only [dispersion_capillary]
  have hc : 0 ≤ p.surface_tension / p.water_density := div_nonneg hs hrho.le
  have hA1 : 0 < p.gravity * k1 + p.surface_tension / p.water_density * k1 ^ 3 := by
    have := mul_pos hg hk
    have := mul_nonneg hc (by positivity : (0 : ℝ) ≤ k1 ^ 3)
    linarith
  have hA12 : p.gravity * k1 + p.surface_tension / p.water_density * k1 ^ 3 <
      p.gravity * k2 + p.surface_tension / p.water_density * k2 ^ 3 := by
    have h1 : p.gravity * k1 < p.gravity * k2 := (mul_lt_mul_left hg).mpr hkk
    have h2 : p.surface_tension / p.water_density * k1 ^ 3 ≤
        p.surface_tension / p.water_density * k2 ^ 3 :=
      mul_le_mul_of_nonneg_left (pow_le_pow_left₀ hk.le hkk.le 3) hc
    linarith
  have hB1 : 0 < Real.tanh (p.water_depth * k1) := tanh_pos_of_pos (mul_pos hh hk)
  have hB12 : Real.tanh (p.water_depth * k1) < Real.tanh (p.water_depth * k2) :=
    tanh_lt_tanh_of_lt ((mul_lt_mul_left hh).mpr hkk)
  exact Real.sqrt_lt_sqrt (mul_nonneg hA1.le hB1.le)
    (mul_lt_mul hA12 hB12.le hB1 (by linarith))

/-- Witness for C8: with unit physical parameters, the dispersion frequency
at `k = 1` is below the one at `k = 2`. -/
theorem dispersion_capillary_strict_mono_witness :
    (0 : ℝ) < 1 ∧
      (dispersion_capillary onesParams 1).1 < (dispersion_capillary onesParams 2).1 :=
  ⟨by norm_num,
    dispersion_capillary_strict_mono onesParams 1 2 (by norm_num [onesParams])
      (by norm_num [onesParams]) (by norm_num [onesParams]) (by norm_num [onesParams])
      (by norm_num) (by norm_num)⟩

/-- C9: `Poly6::w` and `Spiky::w` vanish at and beyond the smoothing radius,
and `Viscosity::w` vanishes below the guard constant `0.00001`. -/
theorem kernel_cutoff_zero (h r rv : ℝ) (hr : h ≤ r) (hv : rv < 1 / 100000) :
    (Poly6.new h).w r = 0 ∧ (Spiky.new h).w r = 0 ∧ (Viscosity.new h).w rv = 0 := by
  refine ⟨?_, ?_, ?_⟩
  · rw [Poly6.w, show (Poly6.new h).h = h from rfl, if_pos hr]
  · rw [Spiky.w, show (Spiky.new h).h = h from rfl, if_pos hr]
  · rw [Viscosity.w, show (Viscosity.new h).h = h from rfl, if_pos (Or.inr hv)]

/-- Witness for C9: with smoothing radius `1`, the Poly6 and Spiky kernels
vanish at radius `2`, and the Viscosity kernel vanishes at radius `0`. -/
theorem kernel_cutoff_zero_witness :
    (1 : ℝ) ≤ 2 ∧
      ((Poly6.new 1).w 2 = 0 ∧ (Spiky.new 1).w 2 = 0 ∧ (Viscosity.new 1).w 0 = 0) :=
  ⟨by norm_num, kernel_cutoff_zero 1 2 0 (by norm_num) (by norm_num)⟩

/-- C10: `Spiky::grad_w` returns `0` whenever the radius is below `0.00001`
or at least the smoothing radius; otherwise the radius is at least `0.00001`
and the gradient is the closed-form quotient, whose denominator is that
radius — so the division is only ever evaluated with a denominator of at
least `0.00001`. -/
theorem spiky_grad_w_guard (h r : ℝ) :
    ((r < 1 / 100000 ∨ h ≤ r) → (Spiky.new h).grad_w r = 0) ∧
      (¬(r < 1 / 100000 ∨ h ≤ r) →
        (1 : ℝ) / 100000 ≤ r ∧
          (Spiky.new h).grad_w r = (Spiky.new h).grad_w_const * (h - r) ^ 2 / r) := by
  constructor
  · intro hg
    rw [Spiky.grad_w, show (Spiky.new h).h = h from rfl, if_pos (hg.elim Or.inr Or.inl)]
  · intro hg
    push_neg at hg
    refine ⟨hg.1, ?_⟩
    rw [Spiky.grad_w, show (Spiky.new h).h = h from rfl,
      if_neg (by push_neg; exact ⟨hg.2, hg.1⟩)]

/-- Witness for C10: with smoothing radius `1`, the gradient is `0` at
radius `0` (below the guard) and equals the closed-form quotient at
radius `1/2`. -/
theorem spiky_grad_w_guard_witness :
    (Spiky.new 1).grad_w 0 = 0 ∧
      (Spiky.new 1).grad_w (1 / 2) =
        (Spiky.new 1).grad_w_const * ((1 : ℝ) - 1 / 2) ^ 2 / (1 / 2) :=
  ⟨(spiky_grad_w_guard 1 0).1 (Or.inl (by norm_num)),
    ((spiky_grad_w_guard 1 (1 / 2)).2 (by norm_num)).2⟩

theorem trapezoidal_quadrature_div (bounds : ℝ × ℝ) (n : ℕ) (f : ℝ → ℝ) (c : ℝ) :
    trapezoidal_quadrature bounds n (fun t => f t / c) =
      trapezoidal_quadrature bounds n f / c := by
  simp only [trapezoidal_quadrature, div_eq_mul_inv, ← Finset.sum_mul]
  ring

/-- C7: whenever the 128-sample trapezoidal normalization constant of
`directional_spreading` is nonzero, the same 128-sample trapezoidal
quadrature of the normalized Donelan-Banner spreading function over
`[-π, π]` is exactly `1`. -/
theorem directional_spreading_integrates_to_one (p : Parameters) (omega : ℝ)
    (h : trapezoidal_quadrature (-Real.pi, Real.pi) 128
        (fun t => directional_base_donelan_banner p omega t *
          directional_elongation p omega t) ≠ 0) :
    trapezoidal_quadrature (-Real.pi, Real.pi) 128
      (fun t => directional_spreading p omega t directional_base_donelan_banner) = 1 := by
  have hfun : (fun t => directional_spreading p omega t directional_base_donelan_banner) =
      fun t => (directional_base_donelan_banner p omega t *
        directional_elongation p omega t) /
          trapezoidal_quadrature (-Real.pi, Real.pi) 128
            (fun s => directional_base_donelan_banner p omega s *
              directional_elongation p omega s) := rfl
  rw [hfun, trapezoidal_quadrature_div, div_self h]

/-- Witness for C7: with unit parameters, zero swell and `omega = 22` (the
spectral peak), the normalization constant is positive — every quadrature
node contributes a nonnegative term and the integrand is the strictly
positive Donelan-Banner base — hence nonzero, and the quadrature of the
normalized spreading function is `1`. -/
theorem directional_spreading_integrates_to_one_witness :
    trapezoidal_quadrature (-Real.pi, Real.pi) 128
        (fun t => directional_base_donelan_banner swellZeroParams 22 t *
          directional_elongation swellZeroParams 22 t) ≠ 0 ∧
      trapezoidal_quadrature (-Real.pi, Real.pi) 128
        (fun t => directional_spreading swellZeroParams 22 t
          directional_base_donelan_banner) = 1 := by
  have helong : ∀ t : ℝ, directional_elongation swellZeroParams 22 t = 1 := by
    intro t
    norm_num [directional_elongation, swellZeroParams, onesParams, Real.rpow_zero]
  have hbase : ∀ t : ℝ, 0 < directional_base_donelan_banner swellZeroParams 22 t := by
    intro t
    have hpk : dispersion_peak (1 : ℝ) 1 1 = 22 := by
      norm_num [dispersion_peak, Real.one_rpow]
    have ht : 0 < Real.tanh (2.28 * Real.pi) := tanh_pos_of_pos (by positivity)
    have hc : 0 < (1 / Real.cosh (2.28 * t)) ^ 2 :=
      pow_pos (div_pos one_pos (Real.cosh_pos _)) 2
    rw [directional_base_donelan_banner]
    simp only [swellZeroParams, onesParams, hpk]
    rw [if_neg (by norm_num [Real.one_rpow]), if_pos (by norm_num)]
    have h228 : (2.28 : ℝ) * ((22 : ℝ) / 22) ^ ((-1.3 : ℝ)) = 2.28 := by
      norm_num [Real.one_rpow]
    rw [h228]
    exact mul_pos (div_pos (by norm_num) (by linarith)) hc
  have hpos : 0 < trapezoidal_quadrature (-Real.pi, Real.pi) 128
      (fun t => directional_base_donelan_banner swellZeroParams 22 t *
        directional_elongation swellZeroParams 22 t) := by
    have hf : ∀ t : ℝ, 0 < directional_base_donelan_banner swellZeroParams 22 t *
        directional_elongation swellZeroParams 22 t := by
      intro t
      rw [helong t, mul_one]
      exact hbase t
    rw [trapezoidal_quadrature]
    have hstep : 0 < (Real.pi - -Real.pi) / (128 : ℕ) := by
      have := Real.pi_pos
      norm_num
      linarith
    refine mul_pos hstep (add_pos (div_pos (add_pos (hf _) (hf _)) two_pos) ?_)
    exact Finset.sum_pos (fun k _ => hf _) ⟨0, by norm_num⟩
  exact ⟨ne_of_gt hpos, directional_spreading_integrates_to_one swellZeroParams 22
    (ne_of_gt hpos)⟩

theorem idft_single (v : Fin 1 → ℂ) : idft v 0 = v 0 := by
  simp [idft]

theorem spectral_to_spatial_single (A : Fin 1 → Fin 1 → ℂ) :
    spectral_to_spatial A 0 0 = A 0 0 := by
  simp only [spectral_to_spatial, idft_single]

theorem propagateSample_const (c : ℂ) :
    propagateSample (fun _ _ => c) omegaZero 0 (0 : Fin 1) (0 : Fin 1) = 2 * c := by
  simp [propagateSample, omegaZero, Complex.ext_iff]
  constructor <;> ring

/-- C4: each axis of the `propagate` output at spatial cell `(j, i)` is the
real part of the corresponding inverse-transformed spectral field, negated
exactly when `(j + i)` is even and unchanged when it is odd. -/
theorem propagate_checkerboard_correction (eps : ℝ) {res : ℕ} (p : Parameters)
    (samples : Fin res → Fin res → ℂ) (omega : Fin res → Fin res → ℝ)
    (time : ℝ) (j i : Fin res) :
    ((Ocean.propagate eps p samples omega time j i).x =
      if ((j : ℕ) + (i : ℕ)) % 2 = 0 then
        -(spectral_to_spatial (dispXField eps p samples omega time) j i).re
      else (spectral_to_spatial (dispXField eps p samples omega time) j i).re) ∧
    ((Ocean.propagate eps p samples omega time j i).y =
      if ((j : ℕ) + (i : ℕ)) % 2 = 0 then
        -(spectral_to_spatial (dispYField samples omega time) j i).re
      else (spectral_to_spatial (dispYField samples omega time) j i).re) ∧
    ((Ocean.propagate eps p samples omega time j i).z =
      if ((j : ℕ) + (i : ℕ)) % 2 = 0 then
        -(spectral_to_spatial (dispZField eps p samples omega time) j i).re
      else (spectral_to_spatial (dispZField eps p samples omega time) j i).re) :=
  ⟨rfl, rfl, rfl⟩

/-- C2, amended: the x component of the `propagate` output is derived (via
inverse transform and checkerboard correction) from the spectral field
`-i * unit_x * sample`, the y component from the UNMODIFIED sample (the
vertical field — the source uses a y-up convention), and the z component
from `-i * unit_y * sample`. -/
theorem propagate_axis_decomposition (eps : ℝ) {res : ℕ} (p : Parameters)
    (samples : Fin res → Fin res → ℂ) (omega : Fin res → Fin res → ℝ)
    (time : ℝ) (j i : Fin res) :
    ((Ocean.propagate eps p samples omega time j i).x =
      checkerboard j i (spectral_to_spatial
        (fun a b => -Complex.I * ((kNormalized eps p res a b).re : ℂ) *
          propagateSample samples omega time a b) j i)) ∧
    ((Ocean.propagate eps p samples omega time j i).y =
      checkerboard j i (spectral_to_spatial
        (fun a b => propagateSample samples omega time a b) j i)) ∧
    ((Ocean.propagate eps p samples omega time j i).z =
      checkerboard j i (spectral_to_spatial
        (fun a b => -Complex.I * ((kNormalized eps p res a b).im : ℂ) *
          propagateSample samples omega time a b) j i)) := by
  have hmk : ∀ u : ℝ, (⟨0, -u⟩ : ℂ) = -Complex.I * (u : ℂ) := by
    intro u
    apply Complex.ext <;> simp
  have hx : dispXField eps p samples omega time =
      fun (a b : Fin res) => -Complex.I * ((kNormalized eps p res a b).re : ℂ) *
        propagateSample samples omega time a b := by
    funext a b
    rw [dispXField, hmk]
  have hz : dispZField eps p samples omega time =
      fun (a b : Fin res) => -Complex.I * ((kNormalized eps p res a b).im : ℂ) *
        propagateSample samples omega time a b := by
    funext a b
    rw [dispZField, hmk]
  refine ⟨?_, rfl, ?_⟩
  · show checkerboard j i (spectral_to_spatial (dispXField eps p samples omega time) j i) = _
    rw [hx]
  · show checkerboard j i (spectral_to_spatial (dispZField eps p samples omega time) j i) = _
    rw [hz]

theorem waveVector_unitK : waveVector unitKParams 1 0 0 = (-1, -1) := by
  have hc : centered 1 0 = -2 := by norm_num [centered]
  have hd : unitKParams.domain_size = 2 * Real.pi := rfl
  rw [waveVector, hc, hd]
  have hpi := Real.pi_ne_zero
  refine Prod.ext ?_ ?_ <;> · field_simp; ring

theorem kNormalized_unitK :
    kNormalized epsF32 unitKParams 1 0 0 =
      ⟨-1 / Real.sqrt 2, -1 / Real.sqrt 2⟩ := by
  have hm : magnitude (-1, -1) = Real.sqrt 2 := by norm_num [magnitude, magnitude2]
  have h1 : (1 : ℝ) ≤ Real.sqrt 2 := by
    rw [show (1 : ℝ) = Real.sqrt 1 from (Real.sqrt_one).symm]
    exact Real.sqrt_le_sqrt (by norm_num)
  have hguard : ¬(Real.sqrt 2 < epsF32) :=
    not_lt.mpr (le_trans (by norm_num [epsF32]) h1)
  rw [kNormalized, waveVector_unitK]
  simp only [hm]
  rw [if_neg hguard]

/-- C3, failing instance: with a resolution-1 grid whose single amplitude is
`i`, zero frequency and time `0`, the inverse-transformed vertical spectral
buffer (the `fft_buffer` content before the checkerboard correction) has
imaginary part `2`, not within any floating tolerance of `0`: the source
pairs the cell with its point-reflected partner WITHOUT conjugating it
(`sample = samples[j,i]*phasor_pos + samples[refl]*phasor_neg`), so the
spectral field is not Hermitian and the spatial field is not real-valued. -/
theorem propagate_vertical_buffer_not_real :
    (spectral_to_spatial (dispYField samplesImag omegaZero 0) 0 0).im = 2 := by
  rw [spectral_to_spatial_single]
  have hs : dispYField samplesImag omegaZero 0 0 0 = 2 * Complex.I := by
    simp only [dispYField]
    rw [show samplesImag = (fun _ _ => Complex.I) from rfl, propagateSample_const]
  rw [hs]
  simp

/-- C2, counterexample: at resolution 1, amplitude grid constantly `1`,
zero frequency grid, time `0` and domain size `2π` (unit wavevector
direction `(-1/√2, -1/√2)`), the y component of the `propagate` output is
`-2` — the checkerboard-corrected transform of the UNMODIFIED vertical
sample — and not the value `0` that the claim's horizontal field
`-i * unit_y * sample` would give, refuting the claimed y/z assignment. -/
theorem propagate_y_not_derived_from_unit_y :
    (Ocean.propagate epsF32 unitKParams samplesOne omegaZero 0 0 0).y ≠
      checkerboard 0 0 (spectral_to_spatial
        (fun (a b : Fin 1) =>
          -Complex.I * ((kNormalized epsF32 unitKParams 1 a b).im : ℂ) *
            propagateSample samplesOne omegaZero 0 a b) 0 0) := by
  have hsample : propagateSample samplesOne omegaZero 0 (0 : Fin 1) (0 : Fin 1) = 2 := by
    rw [show samplesOne = (fun _ _ => (1 : ℂ)) from rfl, propagateSample_const, mul_one]
  have hL : (Ocean.propagate epsF32 unitKParams samplesOne omegaZero 0 0 0).y = -2 := by
    show checkerboard 0 0
      (spectral_to_spatial (dispYField samplesOne omegaZero 0) 0 0) = -2
    rw [spectral_to_spatial_single]
    have hs : dispYField samplesOne omegaZero 0 0 0 = 2 := hsample
    rw [hs, checkerboard]
    norm_num
  have hR : checkerboard 0 0 (spectral_to_spatial
      (fun (a b : Fin 1) =>
        -Complex.I * ((kNormalized epsF32 unitKParams 1 a b).im : ℂ) *
          propagateSample samplesOne omegaZero 0 a b) 0 0) = 0 := by
    rw [spectral_to_spatial_single]
    show checkerboard 0 0
      (-Complex.I * ((kNormalized epsF32 unitKParams 1 0 0).im : ℂ) *
        propagateSample samplesOne omegaZero 0 0 0) = 0
    rw [kNormalized_unitK, hsample, checkerboard]
    norm_num
  rw [hL, hR]
  norm_num

end
